import Mathlib

/-!
# Shelob: peer latency prober

A shallow embedding of `main.go` (package `main`): the histogram configuration
`requestDuration`, the discovery loop `testLoop` and the probe `measureLatency`.

Conventions of the embedding.

* Effects are recorded as event lists.  `measureLatency` yields a `Run`: the events it
  performed, in program order, the value its local variable `mytime` had at the end, and
  how it ended (normal return, or a run-time panic).
  `testLoop` never returns; `testLoop env flags n` is the event trace of its start-up
  followed by its first `n` iterations.
* Everything the program obtains from outside `main.go` is a parameter: the environment
  variable `PODIP`, the behaviour of `http.DefaultTransport`, whether `net/url` accepts the
  request URL, `time.ParseDuration`, and the answers of the Kubernetes API.
* `time.Duration` is an `Int` count of nanoseconds kept inside the int64 range by
  `Time.Sub`, which saturates the way the Go library does.
* A `float64` value is the rational number it denotes.  Every `float64` operation of the
  program (conversion from an integer, `+`, `/`, `*`) is the exact rational result rounded
  by `float64`: IEEE 754 binary64 rounding to nearest, ties to even.
-/

namespace Shelob

/-! ## Package `time` -/

/-- Go `time.Duration`: a signed count of nanoseconds. -/
abbrev Duration := Int

/-- Go `time.Second`. -/
def Second : Int := 1000000000

/-- The largest `time.Duration`, `1<<63 - 1` nanoseconds. -/
def maxDuration : Int := 9223372036854775807

/-- The smallest `time.Duration`, `-1 << 63` nanoseconds. -/
def minDuration : Int := -9223372036854775808

/-- Go `time.Time`: a wall-clock instant, in nanoseconds since January 1, year 1,
00:00:00 UTC, and the monotonic clock reading that values made by `time.Now()` carry. -/
structure Time where
  wall : Int
  mono : Option Int
  deriving DecidableEq, Repr

/-- The zero value of `time.Time`, which a `var t time.Time` declaration yields. -/
def Time.zero : Time := ⟨0, none⟩

/-- The exact number of nanoseconds from `u` to `t`: on the monotonic clock when both
values carry a monotonic reading, on the wall clock otherwise. -/
def Time.diff (t u : Time) : Int :=
  match t.mono, u.mono with
  | some a, some b => a - b
  | _, _ => t.wall - u.wall

/-- Clamp an exact nanosecond count to the range of `time.Duration`. -/
def saturate (d : Int) : Int :=
  if d > maxDuration then maxDuration
  else if d < minDuration then minDuration
  else d

/-- Go `t.Sub(u)`: the duration `t - u`; when it does not fit a `Duration` the maximum
(or minimum) duration is returned. -/
def Time.Sub (t u : Time) : Duration := saturate (Time.diff t u)

/-! ## `float64` arithmetic -/

/-- The integer nearest to `q`; of the two nearest when `q` lies half way, the even one. -/
def roundHalfEven (q : ℚ) : ℤ :=
  if q - ⌊q⌋ < 1 / 2 then ⌊q⌋
  else if 1 / 2 < q - ⌊q⌋ then ⌊q⌋ + 1
  else if ⌊q⌋ % 2 = 0 then ⌊q⌋
  else ⌊q⌋ + 1

/-- The `float64` nearest to the rational `x` (IEEE 754 binary64, round to nearest, ties
to even): with `2 ^ e ≤ |x| < 2 ^ (e + 1)`, the multiple of `2 ^ (e - 52)` nearest to `x`,
that is a significand of 53 bits.  The exponent is not bounded here; binary64 bounds it to
`-1022 ≤ e ≤ 1023`, and every non-zero value this program rounds has a magnitude between
`10 ^ (-10)` and `10 ^ 13`. -/
def float64 (x : ℚ) : ℚ :=
  if x = 0 then 0
  else roundHalfEven (x / 2 ^ (Int.log 2 |x| - 52)) * 2 ^ (Int.log 2 |x| - 52)

/-- Go `d.Seconds()`: `sec := d / Second; nsec := d % Second;
return float64(sec) + float64(nsec)/1e9`, with truncating integer division and `float64`
arithmetic. -/
def Seconds (d : Duration) : ℚ :=
  float64 (float64 ((Int.tdiv d Second : Int) : ℚ)
    + float64 (float64 ((Int.tmod d Second : Int) : ℚ) / 1000000000))

/-! ## Package `fmt` -/

/-- The verb `%d` of `fmt.Sprintf` applied to an `int`. -/
def fmtD (n : Int) : String :=
  if n < 0 then "-" ++ Nat.repr n.natAbs else Nat.repr n.toNat

/-! ## The histogram `requestDuration` -/

/-- The field `Buckets` of the `prometheus.HistogramOpts` of `requestDuration`. -/
def Buckets : List ℚ :=
  [ 1, 2, 3, 4, 5, 6, 7, 8, 9, 10,
    11, 12, 13, 14, 15, 16, 17, 18, 19, 20,
    25, 30, 35, 40, 45, 50, 55, 60, 65, 70, 75, 80, 85, 90, 95, 100,
    110, 120, 130, 140, 150, 160, 170, 180, 190, 200,
    250, 300, 350, 400, 450, 500,
    600, 700, 800, 900, 1000,
    2000, 3000, 4000, 5000,
    10000 ]

/-- The label names of the histogram vector `requestDuration`. -/
def labelNames : List String := ["source", "destination"]

/-! ## `measureLatency` -/

/-- The two hooks of `httptrace.ClientTrace` that `measureLatency` installs.  Each firing
carries the value `time.Now()` returned inside the hook. -/
inductive Callback where
  | ConnectStart (now : Time)
  | GotFirstResponseByte (now : Time)
  deriving DecidableEq, Repr

/-- An `*http.Request`, as far as `measureLatency` determines it. -/
structure Request where
  Method : String
  URL : String
  deriving DecidableEq, Repr

/-- The part of an `*http.Response` that `measureLatency` reads. -/
structure Response where
  StatusCode : Int
  deriving DecidableEq, Repr

/-- What `RoundTrip` returns: a response and a nil error, or a nil response and an error
(given by its message). -/
inductive RoundTripResult where
  | response (res : Response)
  | failure (err : String)
  deriving DecidableEq, Repr

/-- One call of `http.DefaultTransport.RoundTrip`: the trace hooks it fired, in order, and
what it returned. -/
structure Exchange where
  callbacks : List Callback
  result : RoundTripResult
  deriving DecidableEq, Repr

/-- Everything `measureLatency` obtains from outside the program. -/
structure Env where
  /-- The value of `os.Getenv("PODIP")`. -/
  PODIP : String
  /-- Whether `http.NewRequest` accepts the URL text (it fails only when `net/url`
  cannot parse it, the method `GET` being valid). -/
  urlParses : String → Bool
  /-- The behaviour of `http.DefaultTransport.RoundTrip` on a request. -/
  RoundTrip : Request → Exchange

/-- The effects of `measureLatency`. -/
inductive Event where
  | roundTrip (req : Request)
  | log (msg : String)
  | observe (source destination : String) (value : ℚ)
  deriving DecidableEq, Repr

/-- How a call ended. -/
inductive Outcome where
  | returned
  | panicked (msg : String)
  deriving DecidableEq, Repr

/-- A finished call of `measureLatency`. -/
structure Run where
  /-- The effects of the call, in program order. -/
  events : List Event
  /-- The value of the local variable `mytime` when the call ended; `none` when the call
  ended before line 172 assigned it. -/
  mytime : Option Duration
  outcome : Outcome
  deriving DecidableEq, Repr

/-- The message of Go's run-time panic on a nil pointer dereference. -/
def nilDereference : String :=
  "runtime error: invalid memory address or nil pointer dereference"

/-- The local variables `connStart` and `firstByte`. -/
structure Stamps where
  connStart : Time
  firstByte : Time
  deriving DecidableEq, Repr

/-- The body of the hook that fired, acting on the captured variables. -/
def fire (s : Stamps) : Callback → Stamps
  | .ConnectStart now => { s with connStart := now }
  | .GotFirstResponseByte now => { s with firstByte := now }

/-- The URL text `fmt.Sprintf("http://%s:%d/", ip, port)`. -/
def probeURL (ip : String) (port : Int) : String :=
  "http://" ++ ip ++ ":" ++ fmtD port ++ "/"

/-- The function `measureLatency(ip string, port int)`. -/
def measureLatency (env : Env) (ip : String) (port : Int) : Run :=
  -- var connStart, firstByte time.Time
  let stamps0 : Stamps := ⟨Time.zero, Time.zero⟩
  -- req, err := http.NewRequest("GET", fmt.Sprintf("http://%s:%d/", ip, port), nil)
  let req? : Option Request :=
    if env.urlParses (probeURL ip port) then some ⟨"GET", probeURL ip port⟩ else none
  match req? with
  | none =>
    -- req.Context() on a nil request
    ⟨[], none, .panicked nilDereference⟩
  | some req =>
    -- res, err := http.DefaultTransport.RoundTrip(req)
    let exchange := env.RoundTrip req
    let stamps := exchange.callbacks.foldl fire stamps0
    let res? : Option Response :=
      match exchange.result with
      | .response res => some res
      | .failure _ => none
    let err? : Option String :=
      match exchange.result with
      | .response _ => none
      | .failure err => some err
    let ev1 : List Event := [.roundTrip req]
    -- if err != nil { log.Printf(...) }
    let ev2 : List Event :=
      match err? with
      | some err =>
        ev1 ++ [.log ("Error measuring latency to " ++ ip ++ ":" ++ fmtD port ++ " " ++ err ++ "\n")]
      | none => ev1
    -- mytime := firstByte.Sub(connStart)
    let mytime : Duration := stamps.firstByte.Sub stamps.connStart
    -- res.Body.Close()
    match res? with
    | none => ⟨ev2, some mytime, .panicked nilDereference⟩
    | some res =>
      -- if res.StatusCode != 200 { log.Printf(...) }
      let ev3 : List Event :=
        if res.StatusCode ≠ 200 then
          ev2 ++ [.log ("Unexpected status code " ++ fmtD res.StatusCode
            ++ " while measuring latency of " ++ ip ++ ":" ++ fmtD port ++ "\n")]
        else ev2
      -- requestDuration.With(...).Observe(mytime.Seconds() * 1e3)
      ⟨ev3 ++ [.observe env.PODIP ip (float64 (Seconds mytime * 1000))], some mytime,
        .returned⟩

/-- The `Observe` calls of a run, in order: (source, destination, value). -/
def observations (r : Run) : List (String × String × ℚ) :=
  r.events.filterMap fun
    | .observe s d v => some (s, d, v)
    | _ => none

/-- The requests handed to the transport during a run. -/
def requests (r : Run) : List Request :=
  r.events.filterMap fun
    | .roundTrip req => some req
    | _ => none

/-- The log lines of a run. -/
def logs (r : Run) : List String :=
  r.events.filterMap fun
    | .log msg => some msg
    | _ => none

/-- The time at which the hook `ConnectStart` last fired, if it fired. -/
def lastConnectStart : List Callback → Option Time
  | [] => none
  | .ConnectStart now :: rest => (lastConnectStart rest).orElse fun _ => some now
  | .GotFirstResponseByte _ :: rest => lastConnectStart rest

/-- The time at which the hook `GotFirstResponseByte` last fired, if it fired. -/
def lastFirstByte : List Callback → Option Time
  | [] => none
  | .GotFirstResponseByte now :: rest => (lastFirstByte rest).orElse fun _ => some now
  | .ConnectStart _ :: rest => lastFirstByte rest

/-! ## `testLoop` -/

/-- Kubernetes `v1.EndpointAddress`. -/
structure EndpointAddress where
  IP : String
  Hostname : String
  deriving DecidableEq, Repr

/-- Kubernetes `v1.EndpointSubset`. -/
structure EndpointSubset where
  Addresses : List EndpointAddress
  NotReadyAddresses : List EndpointAddress
  deriving DecidableEq, Repr

/-- Kubernetes `v1.Endpoints`. -/
structure Endpoints where
  Subsets : List EndpointSubset
  deriving DecidableEq, Repr

/-- The command-line flags that `testLoop` reads. -/
structure Flags where
  endpointsName : String
  period : String
  httpPort : Int

/-- Everything `testLoop` obtains from outside the program. -/
structure LoopEnv where
  /-- The library function `time.ParseDuration`. -/
  ParseDuration : String → Except String Duration
  /-- The answer of `clientset.CoreV1().Endpoints(ns).Get(name, ...)` to the call made
  by iteration `k` of the loop. -/
  Get : Nat → String → String → Except String Endpoints

/-- The effects of `testLoop`. -/
inductive LoopEvent where
  | log (msg : String)
  | get (ns name : String)
  | go (ip : String) (port : Int)
  | sleep (d : Duration)
  deriving DecidableEq, Repr

/-- Lines 134 to 138: the value of `periodDuration` and the events of computing it. -/
def startup (env : LoopEnv) (flags : Flags) : Duration × List LoopEvent :=
  match env.ParseDuration flags.period with
  | .ok d => (d, [])
  | .error err =>
    (Second,
      [.log ("Error: Value of --period-duration cannot be parsed, see https://golang.org/pkg/time/#ParseDuration, using default value of '1s'. Passed value: "
        ++ flags.period ++ " Error: " ++ err ++ "\n")])

/-- The variable `periodDuration`. -/
def periodDuration (env : LoopEnv) (flags : Flags) : Duration := (startup env flags).1

/-- Lines 145 to 149: one `go measureLatency(address.IP, *httpPort)` per address of
`subset.Addresses`, for each subset in turn. -/
def fanOut (endpoint : Endpoints) (port : Int) : List LoopEvent :=
  endpoint.Subsets.flatMap fun subset =>
    subset.Addresses.map fun address => LoopEvent.go address.IP port

/-- Iteration `k` of the `for` loop, lines 140 to 150. -/
def tick (env : LoopEnv) (flags : Flags) (k : Nat) : List LoopEvent :=
  match env.Get k "utils" flags.endpointsName with
  | .error err =>
    -- log.Printf(...); continue
    [.get "utils" flags.endpointsName, .log ("Unable to fetch endpoint: " ++ err ++ "\n")]
  | .ok endpoint =>
    [.get "utils" flags.endpointsName] ++ fanOut endpoint flags.httpPort
      ++ [.sleep (periodDuration env flags)]

/-- The iterations `k`, `k + 1`, ..., `k + n - 1` of the loop. -/
def ticksFrom (env : LoopEnv) (flags : Flags) (k : Nat) : Nat → List LoopEvent
  | 0 => []
  | n + 1 => tick env flags k ++ ticksFrom env flags (k + 1) n

/-- The function `testLoop()`: the trace of its start-up and its first `n` iterations. -/
def testLoop (env : LoopEnv) (flags : Flags) (n : Nat) : List LoopEvent :=
  (startup env flags).2 ++ ticksFrom env flags 0 n

/-! ## Sample inputs -/

/-- A wall-clock and monotonic reading taken `ms` milliseconds after a process started at
2018-01-01 00:00:00 UTC (63650361600 seconds after the zero time). -/
def nowAt (ms : Int) : Time :=
  ⟨63650361600000000000 + ms * 1000000, some (ms * 1000000)⟩

/-- A peer that answers with `status`: the connection starts at 2 ms and the first
response byte arrives at 7 ms. -/
def answering (status : Int) : Env where
  PODIP := "10.0.0.1"
  urlParses := fun _ => true
  RoundTrip := fun _ =>
    ⟨[.ConnectStart (nowAt 2), .GotFirstResponseByte (nowAt 7)], .response ⟨status⟩⟩

/-- A peer that refuses the connection. -/
def refusing : Env where
  PODIP := "10.0.0.1"
  urlParses := fun _ => true
  RoundTrip := fun _ =>
    ⟨[.ConnectStart (nowAt 2)], .failure "dial tcp 10.0.0.7:8080: connect: connection refused"⟩

/-- A peer that answers over a connection the transport already had: no `ConnectStart`
hook fires, the first response byte arrives at 7 ms. -/
def reusing : Env where
  PODIP := "10.0.0.1"
  urlParses := fun _ => true
  RoundTrip := fun _ => ⟨[.GotFirstResponseByte (nowAt 7)], .response ⟨200⟩⟩

/-- The default values of the flags `endpointsname`, `period-duration` and `port`. -/
def defaultFlags : Flags := ⟨"shelob", "1s", 8080⟩

/-- A stand-in for `time.ParseDuration` on the few strings the samples use. -/
def sampleParseDuration (s : String) : Except String Duration :=
  if s = "1s" then .ok Second
  else if s = "250ms" then .ok 250000000
  else .error ("time: invalid duration " ++ s)

/-- Two subsets with three ready addresses and one that is not ready. -/
def sampleEndpoints : Endpoints :=
  ⟨[⟨[⟨"10.0.0.7", ""⟩, ⟨"10.0.0.8", ""⟩], [⟨"10.0.0.9", ""⟩]⟩, ⟨[⟨"10.0.1.4", ""⟩], []⟩]⟩

/-- An API server that answers every query with `sampleEndpoints`. -/
def healthyApi : LoopEnv := ⟨sampleParseDuration, fun _ _ _ => .ok sampleEndpoints⟩

/-- An API server that fails every query. -/
def failingApi : LoopEnv :=
  ⟨sampleParseDuration, fun _ _ _ => .error "the server could not find the requested resource"⟩

/-! ## Sample inputs, continued -/

/-- A peer that answers with status 200 while the hooks fire in the inverted order: the
first response byte arrives at 4 ms, and a connection attempt made for the same request
starts at 7 ms. -/
def inverted : Env where
  PODIP := "10.0.0.1"
  urlParses := fun _ => true
  RoundTrip := fun _ =>
    ⟨[.GotFirstResponseByte (nowAt 4), .ConnectStart (nowAt 7)], .response ⟨200⟩⟩

/-- A peer that answers with status 200: the connection starts at 2 ms and the first
response byte arrives 4.1 ms later. -/
def answeringLate : Env where
  PODIP := "10.0.0.1"
  urlParses := fun _ => true
  RoundTrip := fun _ =>
    ⟨[.ConnectStart (nowAt 2), .GotFirstResponseByte ⟨63650361600006100000, some 6100000⟩],
      .response ⟨200⟩⟩

/-! ## Lemmas on `float64` rounding -/

theorem roundHalfEven_sub_le (q : ℚ) : |(roundHalfEven q : ℚ) - q| ≤ 1 / 2 := by
  have h1 : (⌊q⌋ : ℚ) ≤ q := Int.floor_le q
  have h2 : q < (⌊q⌋ : ℚ) + 1 := Int.lt_floor_add_one q
  unfold roundHalfEven
  rw [abs_le]
  split_ifs with ha hb hc
  · constructor <;> linarith
  · push_cast; constructor <;> linarith
  · constructor <;> linarith
  · push_cast; constructor <;> linarith

theorem roundHalfEven_eq_of_near (q : ℚ) (n : ℤ) (h : |q - n| < 1 / 2) : roundHalfEven q = n := by
  have h1 := roundHalfEven_sub_le q
  rw [abs_le] at h1
  rw [abs_lt] at h
  have h2 : ((roundHalfEven q - n : ℤ) : ℚ) < 1 := by push_cast; linarith
  have h3 : (-1 : ℚ) < ((roundHalfEven q - n : ℤ) : ℚ) := by push_cast; linarith
  have h4 : roundHalfEven q - n < 1 := by exact_mod_cast h2
  have h5 : -1 < roundHalfEven q - n := by exact_mod_cast h3
  omega

theorem roundHalfEven_intCast (n : ℤ) : roundHalfEven (n : ℚ) = n :=
  roundHalfEven_eq_of_near _ n (by simp)

theorem roundHalfEven_mono {p q : ℚ} (h : p ≤ q) : roundHalfEven p ≤ roundHalfEven q := by
  rcases eq_or_lt_of_le h with h | h
  · rw [h]
  by_contra hlt
  have hlt : roundHalfEven q + 1 ≤ roundHalfEven p := by omega
  have hq : (((roundHalfEven q + 1 : ℤ)) : ℚ) ≤ ((roundHalfEven p : ℤ) : ℚ) := by exact_mod_cast hlt
  have h1 := roundHalfEven_sub_le p
  have h2 := roundHalfEven_sub_le q
  rw [abs_le] at h1 h2
  push_cast at hq
  linarith

theorem two_zpow_pos (e : ℤ) : (0 : ℚ) < 2 ^ e := zpow_pos (by norm_num) e

theorem binade {x : ℚ} (hx : x ≠ 0) :
    (2 : ℚ) ^ Int.log 2 |x| ≤ |x| ∧ |x| < (2 : ℚ) ^ (Int.log 2 |x| + 1) := by
  have h := Int.zpow_log_le_self (b := 2) (r := |x|) (by norm_num) (abs_pos.mpr hx)
  have h' := Int.lt_zpow_succ_log_self (b := 2) (by norm_num) |x|
  exact ⟨by exact_mod_cast h, by exact_mod_cast h'⟩

theorem log_eq_of_binade {x : ℚ} {e : ℤ} (h1 : (2 : ℚ) ^ e ≤ |x|) (h2 : |x| < (2 : ℚ) ^ (e + 1)) :
    Int.log 2 |x| = e := by
  have hpos : 0 < |x| := lt_of_lt_of_le (two_zpow_pos e) h1
  have a : e ≤ Int.log 2 |x| :=
    (Int.zpow_le_iff_le_log (b := 2) (by norm_num) hpos).mp (by exact_mod_cast h1)
  have b : Int.log 2 |x| < e + 1 :=
    (Int.lt_zpow_iff_log_lt (b := 2) (by norm_num) hpos).mp (by exact_mod_cast h2)
  omega

/-- A rounding certificate: `x` lies in the binade of `2 ^ e` and within half a unit of the
multiple `n` of `2 ^ (e - 52)`, so `float64 x` is that multiple. -/
theorem float64_eq_of_near (x : ℚ) (e n : ℤ) (h1 : (2 : ℚ) ^ e ≤ |x|) (h2 : |x| < (2 : ℚ) ^ (e + 1))
    (h3 : |x / 2 ^ (e - 52) - n| < 1 / 2) : float64 x = n * 2 ^ (e - 52) := by
  have hpos : 0 < |x| := lt_of_lt_of_le (two_zpow_pos e) h1
  have hx : x ≠ 0 := abs_pos.mp hpos
  unfold float64
  rw [if_neg hx, log_eq_of_binade h1 h2, roundHalfEven_eq_of_near _ n h3]

theorem float64_zero : float64 0 = 0 := by simp [float64]

theorem float64_sub_le (x : ℚ) : |float64 x - x| ≤ |x| / 2 ^ 53 := by
  by_cases hx : x = 0
  · simp [hx, float64]
  have hb := (binade hx).1
  have hu := two_zpow_pos (Int.log 2 |x| - 52)
  have hr := roundHalfEven_sub_le (x / 2 ^ (Int.log 2 |x| - 52))
  unfold float64
  rw [if_neg hx]
  have hsplit : (2 : ℚ) ^ Int.log 2 |x| = 2 ^ (Int.log 2 |x| - 52) * 2 ^ 52 := by
    have : (2 : ℚ) ^ (52 : ℤ) = 2 ^ 52 := by norm_num
    rw [← this, ← zpow_add₀ (by norm_num : (2 : ℚ) ≠ 0)]
    congr 1; ring
  have key : (roundHalfEven (x / 2 ^ (Int.log 2 |x| - 52)) : ℚ) * 2 ^ (Int.log 2 |x| - 52) - x
      = ((roundHalfEven (x / 2 ^ (Int.log 2 |x| - 52)) : ℚ) - x / 2 ^ (Int.log 2 |x| - 52))
        * 2 ^ (Int.log 2 |x| - 52) := by
    field_simp
  rw [key, abs_mul, abs_of_pos hu]
  have : |(roundHalfEven (x / 2 ^ (Int.log 2 |x| - 52)) : ℚ) - x / 2 ^ (Int.log 2 |x| - 52)|
      * 2 ^ (Int.log 2 |x| - 52) ≤ 1 / 2 * 2 ^ (Int.log 2 |x| - 52) :=
    mul_le_mul_of_nonneg_right hr hu.le
  rw [hsplit] at hb
  rw [le_div_iff₀ (by norm_num)]
  nlinarith

theorem float64_nonneg {x : ℚ} (hx : 0 ≤ x) : 0 ≤ float64 x := by
  unfold float64
  split_ifs with h0
  · exact le_refl 0
  · have hu := two_zpow_pos (Int.log 2 |x| - 52)
    have hq : (0 : ℚ) ≤ x / 2 ^ (Int.log 2 |x| - 52) := div_nonneg hx hu.le
    have := roundHalfEven_mono hq
    have h0' : roundHalfEven ((0 : ℤ) : ℚ) = 0 := roundHalfEven_intCast 0
    simp only [Int.cast_zero] at h0'
    rw [h0'] at this
    have : (0 : ℚ) ≤ (roundHalfEven (x / 2 ^ (Int.log 2 |x| - 52)) : ℚ) := by exact_mod_cast this
    exact mul_nonneg this hu.le

theorem float64_nonpos {x : ℚ} (hx : x ≤ 0) : float64 x ≤ 0 := by
  unfold float64
  split_ifs with h0
  · exact le_refl 0
  · have hu := two_zpow_pos (Int.log 2 |x| - 52)
    have hq : x / 2 ^ (Int.log 2 |x| - 52) ≤ (0 : ℚ) := div_nonpos_of_nonpos_of_nonneg hx hu.le
    have := roundHalfEven_mono hq
    have h0' : roundHalfEven ((0 : ℤ) : ℚ) = 0 := roundHalfEven_intCast 0
    simp only [Int.cast_zero] at h0'
    rw [h0'] at this
    have : (roundHalfEven (x / 2 ^ (Int.log 2 |x| - 52)) : ℚ) ≤ 0 := by exact_mod_cast this
    exact mul_nonpos_of_nonpos_of_nonneg this hu.le

theorem float64_bounds {x : ℚ} (hx : 0 < x) :
    (2 : ℚ) ^ Int.log 2 |x| ≤ float64 x ∧ float64 x ≤ (2 : ℚ) ^ (Int.log 2 |x| + 1) := by
  have hne : x ≠ 0 := ne_of_gt hx
  have hax : |x| = x := abs_of_pos hx
  have hlo : (2 : ℚ) ^ Int.log 2 |x| ≤ x := le_of_le_of_eq (binade hne).1 hax
  have hhi : x < (2 : ℚ) ^ (Int.log 2 |x| + 1) := lt_of_eq_of_lt hax.symm (binade hne).2
  have hu := two_zpow_pos (Int.log 2 |x| - 52)
  have e1 : (2 : ℚ) ^ Int.log 2 |x| = 2 ^ 52 * 2 ^ (Int.log 2 |x| - 52) := by
    have : (2 : ℚ) ^ (52 : ℤ) = 2 ^ 52 := by norm_num
    rw [← this, ← zpow_add₀ (by norm_num : (2 : ℚ) ≠ 0)]
    congr 1; ring
  have e2 : (2 : ℚ) ^ (Int.log 2 |x| + 1) = 2 ^ 53 * 2 ^ (Int.log 2 |x| - 52) := by
    have : (2 : ℚ) ^ (53 : ℤ) = 2 ^ 53 := by norm_num
    rw [← this, ← zpow_add₀ (by norm_num : (2 : ℚ) ≠ 0)]
    congr 1; ring
  have k1 : (((2 ^ 52 : ℤ)) : ℚ) = 2 ^ 52 := by norm_num
  have k2 : (((2 ^ 53 : ℤ)) : ℚ) = 2 ^ 53 := by norm_num
  have q1 : (((2 ^ 52 : ℤ)) : ℚ) ≤ x / 2 ^ (Int.log 2 |x| - 52) := by
    rw [k1, le_div_iff₀ hu, ← e1]; exact hlo
  have q2 : x / 2 ^ (Int.log 2 |x| - 52) ≤ (((2 ^ 53 : ℤ)) : ℚ) := by
    rw [k2, div_le_iff₀ hu, ← e2]; exact hhi.le
  have r1 := roundHalfEven_mono q1
  have r2 := roundHalfEven_mono q2
  rw [roundHalfEven_intCast] at r1 r2
  have c1 : ((2 : ℚ) ^ 52) ≤ (roundHalfEven (x / 2 ^ (Int.log 2 |x| - 52)) : ℚ) := by
    rw [← k1]; exact_mod_cast r1
  have c2 : (roundHalfEven (x / 2 ^ (Int.log 2 |x| - 52)) : ℚ) ≤ ((2 : ℚ) ^ 53) := by
    rw [← k2]; exact_mod_cast r2
  unfold float64
  rw [if_neg hne, e1, e2]
  exact ⟨mul_le_mul_of_nonneg_right c1 hu.le, mul_le_mul_of_nonneg_right c2 hu.le⟩

theorem float64_mono {x y : ℚ} (hx : 0 ≤ x) (h : x ≤ y) : float64 x ≤ float64 y := by
  rcases eq_or_lt_of_le hx with h0 | hpos
  · rw [← h0, float64_zero]; exact float64_nonneg (le_trans hx h)
  have hypos : 0 < y := lt_of_lt_of_le hpos h
  have hlog : Int.log 2 |x| ≤ Int.log 2 |y| := by
    rw [abs_of_pos hpos, abs_of_pos hypos]
    exact Int.log_mono_right hpos h
  rcases eq_or_lt_of_le hlog with he | hlt
  · have hu := two_zpow_pos (Int.log 2 |y| - 52)
    unfold float64
    rw [if_neg (ne_of_gt hpos), if_neg (ne_of_gt hypos), he]
    have hq : x / 2 ^ (Int.log 2 |y| - 52) ≤ y / 2 ^ (Int.log 2 |y| - 52) :=
      div_le_div_of_nonneg_right h hu.le
    have hr := roundHalfEven_mono hq
    have hc : (roundHalfEven (x / 2 ^ (Int.log 2 |y| - 52)) : ℚ)
        ≤ (roundHalfEven (y / 2 ^ (Int.log 2 |y| - 52)) : ℚ) := by exact_mod_cast hr
    exact mul_le_mul_of_nonneg_right hc hu.le
  · have b1 := (float64_bounds hpos).2
    have b2 := (float64_bounds hypos).1
    have hstep : (2 : ℚ) ^ (Int.log 2 |x| + 1) ≤ 2 ^ Int.log 2 |y| :=
      zpow_le_zpow_right₀ (by norm_num) (by omega)
    exact le_trans b1 (le_trans hstep b2)

theorem float64_intCast (m : ℤ) (h : |m| < 2 ^ 53) : float64 (m : ℚ) = m := by
  by_cases hm : m = 0
  · simp [hm, float64]
  have hmq : (m : ℚ) ≠ 0 := by exact_mod_cast hm
  have habs : |(m : ℚ)| < (2 : ℚ) ^ (53 : ℤ) := by
    have : ((|m| : ℤ) : ℚ) < ((2 ^ 53 : ℤ) : ℚ) := by exact_mod_cast h
    rw [Int.cast_abs] at this
    norm_num at this ⊢
    exact this
  have hlog : Int.log 2 |(m : ℚ)| < 53 :=
    (Int.lt_zpow_iff_log_lt (b := 2) (by norm_num) (abs_pos.mpr hmq)).mp (by exact_mod_cast habs)
  obtain ⟨k, hk⟩ : ∃ k : ℕ, Int.log 2 |(m : ℚ)| - 52 = -(k : ℤ) :=
    ⟨(52 - Int.log 2 |(m : ℚ)|).toNat, by omega⟩
  unfold float64
  rw [if_neg hmq, hk, zpow_neg, zpow_natCast]
  have hq : (m : ℚ) / ((2 : ℚ) ^ k)⁻¹ = ((m * 2 ^ k : ℤ) : ℚ) := by
    push_cast; field_simp
  rw [hq, roundHalfEven_intCast]
  push_cast
  field_simp

theorem float64_le_mul {x B : ℚ} (hx : 0 ≤ x) (h : x ≤ B) : float64 x ≤ B * (1 + 1 / 2 ^ 53) := by
  have he := float64_sub_le x
  rw [abs_of_nonneg hx, abs_le] at he
  have : x * (1 + 1 / 2 ^ 53) ≤ B * (1 + 1 / 2 ^ 53) :=
    mul_le_mul_of_nonneg_right h (by norm_num)
  linarith [he.2]

theorem mul_le_float64 {x B : ℚ} (hB : 0 ≤ B) (h : B ≤ x) : B * (1 - 1 / 2 ^ 53) ≤ float64 x := by
  have he := float64_sub_le x
  rw [abs_of_nonneg (le_trans hB h), abs_le] at he
  have : B * (1 - 1 / 2 ^ 53) ≤ x * (1 - 1 / 2 ^ 53) :=
    mul_le_mul_of_nonneg_right h (by norm_num)
  linarith [he.1]

/-- The split of a non-negative duration into seconds and nanoseconds. -/
theorem Seconds_of_nonneg (d : Int) (h0 : 0 ≤ d) (h1 : d ≤ maxDuration) :
    Seconds d = float64 (((d / 1000000000 : Int) : ℚ)
      + float64 (((d % 1000000000 : Int) : ℚ) / 1000000000)) := by
  unfold maxDuration at h1
  have hs : |d / 1000000000| < 2 ^ 53 := by
    rw [abs_lt]; constructor <;> omega
  have hn : |d % 1000000000| < 2 ^ 53 := by
    rw [abs_lt]; constructor <;> omega
  unfold Seconds Second
  rw [Int.tdiv_eq_ediv h0 (by decide), Int.tmod_eq_emod h0 (by decide),
    float64_intCast _ hs, float64_intCast _ hn]

theorem milliseconds_bounds (d : Int) (h0 : 0 ≤ d) (h1 : d ≤ maxDuration) :
    0 ≤ float64 (Seconds d * 1000)
      ∧ (d : ℚ) / 1000000 * (1 - 1 / 2 ^ 51) ≤ float64 (Seconds d * 1000)
      ∧ float64 (Seconds d * 1000) ≤ (d : ℚ) / 1000000 * (1 + 1 / 2 ^ 51) := by
  rw [Seconds_of_nonneg d h0 h1]
  have hsec : (0 : ℚ) ≤ ((d / 1000000000 : Int) : ℚ) := by
    have : (0 : Int) ≤ d / 1000000000 := by omega
    exact_mod_cast this
  have hnsec : (0 : ℚ) ≤ ((d % 1000000000 : Int) : ℚ) := by
    have : (0 : Int) ≤ d % 1000000000 := by omega
    exact_mod_cast this
  have hd : (d : ℚ) = 1000000000 * ((d / 1000000000 : Int) : ℚ) + ((d % 1000000000 : Int) : ℚ) := by
    have : d = 1000000000 * (d / 1000000000) + d % 1000000000 := by omega
    exact_mod_cast this
  generalize ((d / 1000000000 : Int) : ℚ) = sec at *
  generalize ((d % 1000000000 : Int) : ℚ) = nsec at *
  have ha : (0 : ℚ) ≤ nsec / 1000000000 := by positivity
  have hA := float64_nonneg ha
  have hs : (0 : ℚ) ≤ sec + float64 (nsec / 1000000000) := by linarith
  have hS := float64_nonneg hs
  have hp : (0 : ℚ) ≤ float64 (sec + float64 (nsec / 1000000000)) * 1000 := by positivity
  have hW : (0 : ℚ) ≤ sec + nsec / 1000000000 := by linarith
  -- upper bounds
  have uA := float64_le_mul ha (le_refl _)
  have us : sec + float64 (nsec / 1000000000) ≤ (sec + nsec / 1000000000) * (1 + 1 / 2 ^ 53) := by
    have : sec ≤ sec * (1 + 1 / 2 ^ 53) := by
      have := mul_nonneg hsec (by norm_num : (0 : ℚ) ≤ 1 / 2 ^ 53)
      linarith
    linarith
  have uS := float64_le_mul hs us
  have up : float64 (sec + float64 (nsec / 1000000000)) * 1000
      ≤ (sec + nsec / 1000000000) * (1 + 1 / 2 ^ 53) * (1 + 1 / 2 ^ 53) * 1000 := by linarith
  have uV := float64_le_mul hp up
  -- lower bounds
  have lA := mul_le_float64 ha (le_refl _)
  have ls : (sec + nsec / 1000000000) * (1 - 1 / 2 ^ 53) ≤ sec + float64 (nsec / 1000000000) := by
    have : sec * (1 - 1 / 2 ^ 53) ≤ sec := by
      have := mul_nonneg hsec (by norm_num : (0 : ℚ) ≤ 1 / 2 ^ 53)
      linarith
    linarith
  have hW1 : (0 : ℚ) ≤ (sec + nsec / 1000000000) * (1 - 1 / 2 ^ 53) :=
    mul_nonneg hW (by norm_num)
  have lS := mul_le_float64 hW1 ls
  have hW2 : (0 : ℚ) ≤ (sec + nsec / 1000000000) * (1 - 1 / 2 ^ 53) * (1 - 1 / 2 ^ 53) * 1000 := by
    have := mul_nonneg hW1 (by norm_num : (0 : ℚ) ≤ 1 - 1 / 2 ^ 53)
    linarith
  have lp : (sec + nsec / 1000000000) * (1 - 1 / 2 ^ 53) * (1 - 1 / 2 ^ 53) * 1000
      ≤ float64 (sec + float64 (nsec / 1000000000)) * 1000 := by linarith
  have lV := mul_le_float64 hW2 lp
  have hT : (d : ℚ) / 1000000 = (sec + nsec / 1000000000) * 1000 := by
    rw [hd]; ring
  rw [hT]
  refine ⟨float64_nonneg hp, ?_, ?_⟩
  · have c : (sec + nsec / 1000000000) * 1000 * (1 - 1 / 2 ^ 51)
        ≤ (sec + nsec / 1000000000) * (1 - 1 / 2 ^ 53) * (1 - 1 / 2 ^ 53) * 1000
          * (1 - 1 / 2 ^ 53) := by
      have e : (sec + nsec / 1000000000) * (1 - 1 / 2 ^ 53) * (1 - 1 / 2 ^ 53) * 1000
          * (1 - 1 / 2 ^ 53)
          = (sec + nsec / 1000000000) * 1000
            * ((1 - 1 / 2 ^ 53) * (1 - 1 / 2 ^ 53) * (1 - 1 / 2 ^ 53)) := by ring
      rw [e]
      exact mul_le_mul_of_nonneg_left (by norm_num) (by positivity)
    exact le_trans c lV
  · have c : (sec + nsec / 1000000000) * (1 + 1 / 2 ^ 53) * (1 + 1 / 2 ^ 53) * 1000
          * (1 + 1 / 2 ^ 53)
        ≤ (sec + nsec / 1000000000) * 1000 * (1 + 1 / 2 ^ 51) := by
      have e : (sec + nsec / 1000000000) * (1 + 1 / 2 ^ 53) * (1 + 1 / 2 ^ 53) * 1000
          * (1 + 1 / 2 ^ 53)
          = (sec + nsec / 1000000000) * 1000
            * ((1 + 1 / 2 ^ 53) * (1 + 1 / 2 ^ 53) * (1 + 1 / 2 ^ 53)) := by ring
      rw [e]
      exact mul_le_mul_of_nonneg_left (by norm_num) (by positivity)
    exact le_trans uV c

theorem milliseconds_mono (d d' : Int) (h0 : 0 ≤ d) (h : d ≤ d') (h1 : d' ≤ maxDuration) :
    float64 (Seconds d * 1000) ≤ float64 (Seconds d' * 1000) := by
  have h0' : 0 ≤ d' := le_trans h0 h
  rw [Seconds_of_nonneg d h0 (le_trans h h1), Seconds_of_nonneg d' h0' h1]
  have hsec : (0 : ℚ) ≤ ((d / 1000000000 : Int) : ℚ) := by
    have : (0 : Int) ≤ d / 1000000000 := by omega
    exact_mod_cast this
  have hn : (0 : ℚ) ≤ ((d % 1000000000 : Int) : ℚ) / 1000000000 := by
    have : (0 : Int) ≤ d % 1000000000 := by omega
    have : (0 : ℚ) ≤ ((d % 1000000000 : Int) : ℚ) := by exact_mod_cast this
    positivity
  have hn' : (0 : ℚ) ≤ ((d' % 1000000000 : Int) : ℚ) / 1000000000 := by
    have : (0 : Int) ≤ d' % 1000000000 := by omega
    have : (0 : ℚ) ≤ ((d' % 1000000000 : Int) : ℚ) := by exact_mod_cast this
    positivity
  have hA := float64_nonneg hn
  have hA' := float64_nonneg hn'
  have hsum : ((d / 1000000000 : Int) : ℚ) + float64 (((d % 1000000000 : Int) : ℚ) / 1000000000)
      ≤ ((d' / 1000000000 : Int) : ℚ)
        + float64 (((d' % 1000000000 : Int) : ℚ) / 1000000000) := by
    rcases lt_or_le (d / 1000000000) (d' / 1000000000) with hlt | hge
    · have hone : float64 (((d % 1000000000 : Int) : ℚ) / 1000000000) ≤ 1 := by
        have hle : ((d % 1000000000 : Int) : ℚ) / 1000000000 ≤ ((1 : Int) : ℚ) := by
          have : d % 1000000000 ≤ 1000000000 := by omega
          have : ((d % 1000000000 : Int) : ℚ) ≤ 1000000000 := by exact_mod_cast this
          rw [div_le_iff₀ (by norm_num)]
          simpa using this
        have := float64_mono hn hle
        rw [float64_intCast 1 (by decide)] at this
        simpa using this
      have hstep : ((d / 1000000000 : Int) : ℚ) + 1 ≤ ((d' / 1000000000 : Int) : ℚ) := by
        have : d / 1000000000 + 1 ≤ d' / 1000000000 := by omega
        exact_mod_cast this
      linarith
    · have heq : d / 1000000000 = d' / 1000000000 := by omega
      have hle : ((d % 1000000000 : Int) : ℚ) / 1000000000
          ≤ ((d' % 1000000000 : Int) : ℚ) / 1000000000 := by
        have : d % 1000000000 ≤ d' % 1000000000 := by omega
        have : ((d % 1000000000 : Int) : ℚ) ≤ ((d' % 1000000000 : Int) : ℚ) := by
          exact_mod_cast this
        exact div_le_div_of_nonneg_right this (by norm_num)
      have := float64_mono hn hle
      rw [heq]
      linarith
  have hs : (0 : ℚ) ≤ ((d / 1000000000 : Int) : ℚ)
      + float64 (((d % 1000000000 : Int) : ℚ) / 1000000000) := by linarith
  have hS := float64_mono hs hsum
  have hS0 := float64_nonneg hs
  exact float64_mono (by positivity) (by linarith)

/-! ## Values of `mytime.Seconds() * 1e3` at the sample durations -/

theorem milliseconds_5ms : float64 (Seconds (5000000) * 1000) = 5 := by
  have h0 : Int.tdiv (5000000) Second = 0 := by decide
  have h1 : Int.tmod (5000000) Second = 5000000 := by decide
  have hs : float64 (((0) : Int) : ℚ) = 0 := by
    rw [float64_intCast _ (by decide)]; norm_num
  have hn : float64 (((5000000) : Int) : ℚ) = 5000000 := by
    rw [float64_intCast _ (by decide)]; norm_num
  have hA : float64 ((5000000 : ℚ) / 1000000000) = 5764607523034235 / 1152921504606846976 := by
    rw [float64_eq_of_near _ (-8) (5764607523034235) (by norm_num [abs_of_pos])
      (by norm_num [abs_of_pos]) (by norm_num [abs_lt])]
    norm_num
  have hS : float64 ((0 : ℚ) + 5764607523034235 / 1152921504606846976) = 5764607523034235 / 1152921504606846976 := by
    rw [float64_eq_of_near _ (-8) (5764607523034235) (by norm_num [abs_of_pos])
      (by norm_num [abs_of_pos]) (by norm_num [abs_lt])]
    norm_num
  have hV : float64 ((5764607523034235 / 1152921504606846976 : ℚ) * 1000) = 5 := by
    rw [float64_eq_of_near _ (2) (5629499534213120) (by norm_num [abs_of_pos])
      (by norm_num [abs_of_pos]) (by norm_num [abs_lt])]
    norm_num
  unfold Seconds
  rw [h0, h1, hs, hn, hA, hS, hV]

theorem milliseconds_neg_3ms : float64 (Seconds (-3000000) * 1000) = -3 := by
  have h0 : Int.tdiv (-3000000) Second = 0 := by decide
  have h1 : Int.tmod (-3000000) Second = -3000000 := by decide
  have hs : float64 (((0) : Int) : ℚ) = 0 := by
    rw [float64_intCast _ (by decide)]; norm_num
  have hn : float64 (((-3000000) : Int) : ℚ) = -3000000 := by
    rw [float64_intCast _ (by decide)]; norm_num
  have hA : float64 ((-3000000 : ℚ) / 1000000000) = -3458764513820541 / 1152921504606846976 := by
    rw [float64_eq_of_near _ (-9) (-6917529027641082) (by norm_num [abs_of_neg])
      (by norm_num [abs_of_neg]) (by norm_num [abs_lt])]
    norm_num
  have hS : float64 ((0 : ℚ) + -3458764513820541 / 1152921504606846976) = -3458764513820541 / 1152921504606846976 := by
    rw [float64_eq_of_near _ (-9) (-6917529027641082) (by norm_num [abs_of_neg])
      (by norm_num [abs_of_neg]) (by norm_num [abs_lt])]
    norm_num
  have hV : float64 ((-3458764513820541 / 1152921504606846976 : ℚ) * 1000) = -3 := by
    rw [float64_eq_of_near _ (1) (-6755399441055744) (by norm_num [abs_of_neg])
      (by norm_num [abs_of_neg]) (by norm_num [abs_lt])]
    norm_num
  unfold Seconds
  rw [h0, h1, hs, hn, hA, hS, hV]

theorem milliseconds_4100us : float64 (Seconds (4100000) * 1000) = 4616189618054759 / 1125899906842624 := by
  have h0 : Int.tdiv (4100000) Second = 0 := by decide
  have h1 : Int.tmod (4100000) Second = 4100000 := by decide
  have hs : float64 (((0) : Int) : ℚ) = 0 := by
    rw [float64_intCast _ (by decide)]; norm_num
  have hn : float64 (((4100000) : Int) : ℚ) = 4100000 := by
    rw [float64_intCast _ (by decide)]; norm_num
  have hA : float64 ((4100000 : ℚ) / 1000000000) = 4726978168888073 / 1152921504606846976 := by
    rw [float64_eq_of_near _ (-8) (4726978168888073) (by norm_num [abs_of_pos])
      (by norm_num [abs_of_pos]) (by norm_num [abs_lt])]
    norm_num
  have hS : float64 ((0 : ℚ) + 4726978168888073 / 1152921504606846976) = 4726978168888073 / 1152921504606846976 := by
    rw [float64_eq_of_near _ (-8) (4726978168888073) (by norm_num [abs_of_pos])
      (by norm_num [abs_of_pos]) (by norm_num [abs_lt])]
    norm_num
  have hV : float64 ((4726978168888073 / 1152921504606846976 : ℚ) * 1000) = 4616189618054759 / 1125899906842624 := by
    rw [float64_eq_of_near _ (2) (4616189618054759) (by norm_num [abs_of_pos])
      (by norm_num [abs_of_pos]) (by norm_num [abs_lt])]
    norm_num
  unfold Seconds
  rw [h0, h1, hs, hn, hA, hS, hV]

theorem milliseconds_maxDuration : float64 (Seconds (9223372036854775807) * 1000) = 2361183241434823 / 256 := by
  have h0 : Int.tdiv (9223372036854775807) Second = 9223372036 := by decide
  have h1 : Int.tmod (9223372036854775807) Second = 854775807 := by decide
  have hs : float64 (((9223372036) : Int) : ℚ) = 9223372036 := by
    rw [float64_intCast _ (by decide)]; norm_num
  have hn : float64 (((854775807) : Int) : ℚ) = 854775807 := by
    rw [float64_intCast _ (by decide)]; norm_num
  have hA : float64 ((854775807 : ℚ) / 1000000000) = 3849568005890515 / 4503599627370496 := by
    rw [float64_eq_of_near _ (-1) (7699136011781030) (by norm_num [abs_of_pos])
      (by norm_num [abs_of_pos]) (by norm_num [abs_lt])]
    norm_num
  have hS : float64 ((9223372036 : ℚ) + 3849568005890515 / 4503599627370496) = 4835703278458517 / 524288 := by
    rw [float64_eq_of_near _ (33) (4835703278458517) (by norm_num [abs_of_pos])
      (by norm_num [abs_of_pos]) (by norm_num [abs_lt])]
    norm_num
  have hV : float64 ((4835703278458517 / 524288 : ℚ) * 1000) = 2361183241434823 / 256 := by
    rw [float64_eq_of_near _ (43) (4722366482869646) (by norm_num [abs_of_pos])
      (by norm_num [abs_of_pos]) (by norm_num [abs_lt])]
    norm_num
  unfold Seconds
  rw [h0, h1, hs, hn, hA, hS, hV]


/-! ## Lemmas on the library model -/

theorem saturate_of_fits {d : Int} (hlo : minDuration ≤ d) (hhi : d ≤ maxDuration) :
    saturate d = d := by
  unfold saturate
  unfold maxDuration minDuration at *
  split_ifs <;> omega

theorem saturate_le_maxDuration (d : Int) : saturate d ≤ maxDuration := by
  unfold saturate maxDuration minDuration
  split_ifs <;> omega

theorem saturate_eq_min_max (d : Int) :
    saturate d = min (max d (-9223372036854775808)) 9223372036854775807 := by
  unfold saturate maxDuration minDuration
  split_ifs <;> omega

theorem foldl_fire_connStart (cbs : List Callback) (s : Stamps) :
    (cbs.foldl fire s).connStart = (lastConnectStart cbs).getD s.connStart := by
  induction cbs generalizing s with
  | nil => rfl
  | cons c rest ih =>
    cases c with
    | ConnectStart now =>
      rw [List.foldl_cons, ih, lastConnectStart]
      cases lastConnectStart rest <;> rfl
    | GotFirstResponseByte now =>
      rw [List.foldl_cons, ih, lastConnectStart]
      rfl

theorem foldl_fire_firstByte (cbs : List Callback) (s : Stamps) :
    (cbs.foldl fire s).firstByte = (lastFirstByte cbs).getD s.firstByte := by
  induction cbs generalizing s with
  | nil => rfl
  | cons c rest ih =>
    cases c with
    | ConnectStart now =>
      rw [List.foldl_cons, ih, lastFirstByte]
      rfl
    | GotFirstResponseByte now =>
      rw [List.foldl_cons, ih, lastFirstByte]
      cases lastFirstByte rest <;> rfl

/-- What `measureLatency` does when the request is built and the transport returns a
response: one optional log line, then one observation. -/
theorem measureLatency_response (env : Env) (ip : String) (port : Int)
    (cbs : List Callback) (res : Response)
    (hurl : env.urlParses (probeURL ip port) = true)
    (hrt : env.RoundTrip ⟨"GET", probeURL ip port⟩ = ⟨cbs, .response res⟩) :
    measureLatency env ip port =
      ⟨[Event.roundTrip ⟨"GET", probeURL ip port⟩]
        ++ (if res.StatusCode ≠ 200 then
            [Event.log ("Unexpected status code " ++ fmtD res.StatusCode
              ++ " while measuring latency of " ++ ip ++ ":" ++ fmtD port ++ "\n")]
          else [])
        ++ [Event.observe env.PODIP ip
            (float64 (Seconds (((lastFirstByte cbs).getD Time.zero).Sub
              ((lastConnectStart cbs).getD Time.zero)) * 1000))],
        some (((lastFirstByte cbs).getD Time.zero).Sub ((lastConnectStart cbs).getD Time.zero)),
        Outcome.returned⟩ := by
  unfold measureLatency
  simp only [hurl, if_true, hrt, foldl_fire_connStart, foldl_fire_firstByte]
  split_ifs <;> simp

/-- What `measureLatency` does when the request is built and the transport returns an
error. -/
theorem measureLatency_failure (env : Env) (ip : String) (port : Int)
    (cbs : List Callback) (err : String)
    (hurl : env.urlParses (probeURL ip port) = true)
    (hrt : env.RoundTrip ⟨"GET", probeURL ip port⟩ = ⟨cbs, .failure err⟩) :
    measureLatency env ip port =
      ⟨[Event.roundTrip ⟨"GET", probeURL ip port⟩,
        Event.log ("Error measuring latency to " ++ ip ++ ":" ++ fmtD port ++ " " ++ err ++ "\n")],
        some (((lastFirstByte cbs).getD Time.zero).Sub ((lastConnectStart cbs).getD Time.zero)),
        Outcome.panicked nilDereference⟩ := by
  unfold measureLatency
  simp only [hurl, if_true, hrt, foldl_fire_connStart, foldl_fire_firstByte]
  simp

/-- When `http.NewRequest` fails, `measureLatency` panics before any effect. -/
theorem measureLatency_bad_url (env : Env) (ip : String) (port : Int)
    (hurl : env.urlParses (probeURL ip port) = false) :
    measureLatency env ip port = ⟨[], none, Outcome.panicked nilDereference⟩ := by
  unfold measureLatency
  simp [hurl]

theorem Time.diff_zero (t : Time) : t.diff Time.zero = t.wall := by
  unfold Time.diff Time.zero
  cases t.mono <;> simp

theorem Buckets_le : ∀ b ∈ Buckets, b ≤ 10000 := by
  intro b hb
  simp only [Buckets, List.mem_cons, List.mem_singleton, List.not_mem_nil, or_false] at hb
  rcases hb with h | h | h | h | h | h | h | h | h | h | h | h | h | h | h | h | h | h | h | h
    | h | h | h | h | h | h | h | h | h | h | h | h | h | h | h | h | h | h | h | h
    | h | h | h | h | h | h | h | h | h | h | h | h | h | h | h | h | h | h | h | h
    | h | h <;> subst h <;> norm_num

/-- The same environment, except that the transport answers every request with a response
of status `code` (firing the hooks it fires in `env`). -/
def withStatus (env : Env) (code : Int) : Env :=
  { env with RoundTrip := fun req => ⟨(env.RoundTrip req).callbacks, .response ⟨code⟩⟩ }

/-! ## The probe -/

/-- C2 (the code departs from the claim): probing a peer that refuses the connection,
`measureLatency` hands the request to the transport, logs the transport error, and then
ends in a nil pointer dereference at `res.Body.Close()` instead of finishing normally. -/
theorem measureLatency_transport_error_panics :
    measureLatency refusing "10.0.0.7" 8080 =
      ⟨[Event.roundTrip ⟨"GET", "http://10.0.0.7:8080/"⟩,
        Event.log "Error measuring latency to 10.0.0.7:8080 dial tcp 10.0.0.7:8080: connect: connection refused\n"],
        some (-9223372036854775808),
        Outcome.panicked nilDereference⟩ := by
  rw [measureLatency_failure refusing "10.0.0.7" 8080 _ _ rfl rfl]
  decide

/-- C3 (the code departs from the claim): probing a peer that refuses the connection,
`measureLatency` does not suppress the timestamp subtraction: line 172 runs and assigns
`mytime` the value of `firstByte.Sub(connStart)`, here the smallest `Duration` (the zero
time minus the start of the connection).  No `Observe` call follows only because the call
ends in the nil pointer dereference of line 173. -/
theorem measureLatency_transport_error_still_subtracts :
    (measureLatency refusing "10.0.0.7" 8080).mytime = some (-9223372036854775808)
      ∧ (measureLatency refusing "10.0.0.7" 8080).outcome = Outcome.panicked nilDereference
      ∧ observations (measureLatency refusing "10.0.0.7" 8080) = [] := by
  rw [measureLatency_failure refusing "10.0.0.7" 8080 _ _ rfl rfl]
  decide

/-- C4: a probe whose round trip returns a response with a status other than 200 makes
exactly one `Observe` call; its value is `firstByte.Sub(connStart).Seconds() * 1e3`, the
same observation the probe makes when the same exchange ends with status 200.  The two
runs issue the same request and both return normally; they differ only in the log line
about the unexpected status.  When `firstByte.Sub(connStart)` is not negative, the observed
`float64` value lies within the relative error `2^-51` of that duration in nanoseconds
divided by 10^6. -/
theorem measureLatency_non200_still_observes (env : Env) (ip : String) (port : Int)
    (cbs : List Callback) (code : Int)
    (hurl : env.urlParses (probeURL ip port) = true)
    (hrt : env.RoundTrip ⟨"GET", probeURL ip port⟩ = ⟨cbs, .response ⟨code⟩⟩)
    (hcode : code ≠ 200) :
    observations (measureLatency env ip port)
        = [(env.PODIP, ip,
            float64 (Seconds ((cbs.foldl fire ⟨Time.zero, Time.zero⟩).firstByte.Sub
              (cbs.foldl fire ⟨Time.zero, Time.zero⟩).connStart) * 1000))]
      ∧ observations (measureLatency (withStatus env 200) ip port)
        = observations (measureLatency env ip port)
      ∧ requests (measureLatency (withStatus env 200) ip port)
        = requests (measureLatency env ip port)
      ∧ (measureLatency env ip port).outcome = Outcome.returned
      ∧ (measureLatency (withStatus env 200) ip port).outcome = Outcome.returned
      ∧ logs (measureLatency env ip port)
        = ["Unexpected status code " ++ fmtD code ++ " while measuring latency of "
            ++ ip ++ ":" ++ fmtD port ++ "\n"]
      ∧ logs (measureLatency (withStatus env 200) ip port) = []
      ∧ (0 ≤ (cbs.foldl fire ⟨Time.zero, Time.zero⟩).firstByte.Sub
            (cbs.foldl fire ⟨Time.zero, Time.zero⟩).connStart →
          (((cbs.foldl fire ⟨Time.zero, Time.zero⟩).firstByte.Sub
              (cbs.foldl fire ⟨Time.zero, Time.zero⟩).connStart : Int) : ℚ) / 1000000
              * (1 - 1 / 2 ^ 51)
            ≤ float64 (Seconds ((cbs.foldl fire ⟨Time.zero, Time.zero⟩).firstByte.Sub
              (cbs.foldl fire ⟨Time.zero, Time.zero⟩).connStart) * 1000)
          ∧ float64 (Seconds ((cbs.foldl fire ⟨Time.zero, Time.zero⟩).firstByte.Sub
              (cbs.foldl fire ⟨Time.zero, Time.zero⟩).connStart) * 1000)
            ≤ (((cbs.foldl fire ⟨Time.zero, Time.zero⟩).firstByte.Sub
              (cbs.foldl fire ⟨Time.zero, Time.zero⟩).connStart : Int) : ℚ) / 1000000
              * (1 + 1 / 2 ^ 51)) := by
  have hbound : 0 ≤ (cbs.foldl fire ⟨Time.zero, Time.zero⟩).firstByte.Sub
        (cbs.foldl fire ⟨Time.zero, Time.zero⟩).connStart →
      (((cbs.foldl fire ⟨Time.zero, Time.zero⟩).firstByte.Sub
          (cbs.foldl fire ⟨Time.zero, Time.zero⟩).connStart : Int) : ℚ) / 1000000
          * (1 - 1 / 2 ^ 51)
        ≤ float64 (Seconds ((cbs.foldl fire ⟨Time.zero, Time.zero⟩).firstByte.Sub
          (cbs.foldl fire ⟨Time.zero, Time.zero⟩).connStart) * 1000)
      ∧ float64 (Seconds ((cbs.foldl fire ⟨Time.zero, Time.zero⟩).firstByte.Sub
          (cbs.foldl fire ⟨Time.zero, Time.zero⟩).connStart) * 1000)
        ≤ (((cbs.foldl fire ⟨Time.zero, Time.zero⟩).firstByte.Sub
          (cbs.foldl fire ⟨Time.zero, Time.zero⟩).connStart : Int) : ℚ) / 1000000
          * (1 + 1 / 2 ^ 51) :=
    fun h0 => (milliseconds_bounds _ h0 (saturate_le_maxDuration _)).2
  have h200 : (withStatus env 200).RoundTrip ⟨"GET", probeURL ip port⟩
      = ⟨cbs, .response ⟨200⟩⟩ := by
    simp [withStatus, hrt]
  have hurl200 : (withStatus env 200).urlParses (probeURL ip port) = true := hurl
  have e1 := measureLatency_response env ip port cbs ⟨code⟩ hurl hrt
  have e2 := measureLatency_response (withStatus env 200) ip port cbs ⟨200⟩ hurl200 h200
  refine ⟨?_, ?_, ?_, ?_, ?_, ?_, ?_, hbound⟩ <;> simp only [e1, e2] <;>
    simp [observations, requests, logs, hcode, foldl_fire_connStart,
      foldl_fire_firstByte, withStatus]

theorem measureLatency_non200_still_observes_witness :
    observations (measureLatency (answering 503) "10.0.0.7" 8080) = [("10.0.0.1", "10.0.0.7", 5)]
      ∧ logs (measureLatency (answering 503) "10.0.0.7" 8080)
        = ["Unexpected status code 503 while measuring latency of 10.0.0.7:8080\n"] := by
  have h := measureLatency_non200_still_observes (answering 503) "10.0.0.7" 8080
    [.ConnectStart (nowAt 2), .GotFirstResponseByte (nowAt 7)] 503 rfl rfl (by decide)
  refine ⟨?_, ?_⟩
  · rw [h.1]
    have hd : (List.foldl fire ⟨Time.zero, Time.zero⟩
        [Callback.ConnectStart (nowAt 2), Callback.GotFirstResponseByte (nowAt 7)]).firstByte.Sub
        (List.foldl fire ⟨Time.zero, Time.zero⟩
        [Callback.ConnectStart (nowAt 2), Callback.GotFirstResponseByte (nowAt 7)]).connStart
        = 5000000 := by decide
    rw [hd, milliseconds_5ms]
    rfl
  · rw [h.2.2.2.2.2.1]
    decide

/-- C5, counterexample: two probes that receive a response with status 200.  In the first
the hooks fire in the inverted order (first byte at 4 ms, connection start at 7 ms) and the
observed value is -3, a negative number.  In the second the first byte arrives 4100000 ns
after the connection start and the observed value is not 4100000 / 10^6 but the `float64`
result 4616189618054759 / 2^50 (printed 4.1000000000000005). -/
theorem measureLatency_success_negative_or_inexact :
    observations (measureLatency inverted "10.0.0.7" 8080) = [("10.0.0.1", "10.0.0.7", -3)]
      ∧ (measureLatency inverted "10.0.0.7" 8080).outcome = Outcome.returned
      ∧ (-3 : ℚ) < 0
      ∧ observations (measureLatency answeringLate "10.0.0.7" 8080)
        = [("10.0.0.1", "10.0.0.7", 4616189618054759 / 1125899906842624)]
      ∧ (4616189618054759 / 1125899906842624 : ℚ) ≠ 4100000 / 1000000 := by
  have h1 : ((lastFirstByte [Callback.GotFirstResponseByte (nowAt 4),
      Callback.ConnectStart (nowAt 7)]).getD Time.zero).Sub
      ((lastConnectStart [Callback.GotFirstResponseByte (nowAt 4),
      Callback.ConnectStart (nowAt 7)]).getD Time.zero) = -3000000 := by decide
  have h2 : ((lastFirstByte [Callback.ConnectStart (nowAt 2),
      Callback.GotFirstResponseByte ⟨63650361600006100000, some 6100000⟩]).getD Time.zero).Sub
      ((lastConnectStart [Callback.ConnectStart (nowAt 2),
      Callback.GotFirstResponseByte ⟨63650361600006100000, some 6100000⟩]).getD Time.zero)
      = 4100000 := by decide
  rw [measureLatency_response inverted "10.0.0.7" 8080 _ ⟨200⟩ rfl rfl,
    measureLatency_response answeringLate "10.0.0.7" 8080 _ ⟨200⟩ rfl rfl,
    h1, h2, milliseconds_neg_3ms, milliseconds_4100us]
  refine ⟨rfl, rfl, by norm_num, rfl, by norm_num⟩

/-- C5, amended: for a probe that receives a response with status 200 during which the hook
`ConnectStart` fired, last at `t0`, and the hook `GotFirstResponseByte` fired, last at `t1`,
with `t1` not before `t0` and at most the largest `Duration` after it, `measureLatency`
makes one observation: the `float64` value of `mytime.Seconds() * 1e3` for `mytime` the
number of nanoseconds from `t0` to `t1`.  That value is not negative, it lies within the
relative error `2^-51` of that number of nanoseconds divided by 10^6, and it is monotone
in the delay: a second such probe whose delay is at least as long observes a value at
least as large. -/
theorem measureLatency_success_latency (env env' : Env) (ip ip' : String) (port port' : Int)
    (cbs cbs' : List Callback) (t0 t1 t0' t1' : Time)
    (hurl : env.urlParses (probeURL ip port) = true)
    (hrt : env.RoundTrip ⟨"GET", probeURL ip port⟩ = ⟨cbs, .response ⟨200⟩⟩)
    (hc : lastConnectStart cbs = some t0) (hf : lastFirstByte cbs = some t1)
    (hord : 0 ≤ t1.diff t0) (hfit : t1.diff t0 ≤ maxDuration)
    (hurl' : env'.urlParses (probeURL ip' port') = true)
    (hrt' : env'.RoundTrip ⟨"GET", probeURL ip' port'⟩ = ⟨cbs', .response ⟨200⟩⟩)
    (hc' : lastConnectStart cbs' = some t0') (hf' : lastFirstByte cbs' = some t1')
    (hfit' : t1'.diff t0' ≤ maxDuration)
    (hdelay : t1.diff t0 ≤ t1'.diff t0') :
    measureLatency env ip port
        = ⟨[Event.roundTrip ⟨"GET", probeURL ip port⟩,
            Event.observe env.PODIP ip (float64 (Seconds (t1.diff t0) * 1000))],
            some (t1.diff t0), Outcome.returned⟩
      ∧ 0 ≤ float64 (Seconds (t1.diff t0) * 1000)
      ∧ (t1.diff t0 : ℚ) / 1000000 * (1 - 1 / 2 ^ 51) ≤ float64 (Seconds (t1.diff t0) * 1000)
      ∧ float64 (Seconds (t1.diff t0) * 1000) ≤ (t1.diff t0 : ℚ) / 1000000 * (1 + 1 / 2 ^ 51)
      ∧ observations (measureLatency env' ip' port')
        = [(env'.PODIP, ip', float64 (Seconds (t1'.diff t0') * 1000))]
      ∧ float64 (Seconds (t1.diff t0) * 1000) ≤ float64 (Seconds (t1'.diff t0') * 1000) := by
  have hmin : minDuration ≤ 0 := by decide
  have hsub : t1.Sub t0 = t1.diff t0 :=
    saturate_of_fits (le_trans hmin hord) hfit
  have hsub' : t1'.Sub t0' = t1'.diff t0' :=
    saturate_of_fits (le_trans hmin (le_trans hord hdelay)) hfit'
  have hb := milliseconds_bounds (t1.diff t0) hord hfit
  have hm := milliseconds_mono (t1.diff t0) (t1'.diff t0') hord hdelay hfit'
  rw [measureLatency_response env ip port cbs ⟨200⟩ hurl hrt,
    measureLatency_response env' ip' port' cbs' ⟨200⟩ hurl' hrt']
  simp only [hc, hf, hc', hf', Option.getD_some, hsub, hsub']
  exact ⟨by simp, hb.1, hb.2.1, hb.2.2, by simp [observations], hm⟩

theorem measureLatency_success_latency_witness :
    (0 : Int) ≤ (⟨63650361600006100000, some 6100000⟩ : Time).diff (nowAt 2)
      ∧ (⟨63650361600006100000, some 6100000⟩ : Time).diff (nowAt 2) ≤ (nowAt 7).diff (nowAt 2)
      ∧ observations (measureLatency answeringLate "10.0.0.7" 8080)
        = [("10.0.0.1", "10.0.0.7", 4616189618054759 / 1125899906842624)]
      ∧ observations (measureLatency (answering 200) "10.0.0.8" 8080)
        = [("10.0.0.1", "10.0.0.8", 5)]
      ∧ (4616189618054759 / 1125899906842624 : ℚ) ≤ 5 := by
  have h := measureLatency_success_latency answeringLate (answering 200)
    "10.0.0.7" "10.0.0.8" 8080 8080
    [.ConnectStart (nowAt 2), .GotFirstResponseByte ⟨63650361600006100000, some 6100000⟩]
    [.ConnectStart (nowAt 2), .GotFirstResponseByte (nowAt 7)]
    (nowAt 2) ⟨63650361600006100000, some 6100000⟩ (nowAt 2) (nowAt 7)
    rfl rfl rfl rfl (by decide) (by decide) rfl rfl rfl rfl (by decide) (by decide)
  have hd : (⟨63650361600006100000, some 6100000⟩ : Time).diff (nowAt 2) = 4100000 := by
    decide
  have hd' : (nowAt 7).diff (nowAt 2) = 5000000 := by decide
  have hle := h.2.2.2.2.2
  have hobs := h.2.2.2.2.1
  rw [hd, hd', milliseconds_5ms, milliseconds_4100us] at hle
  rw [hd', milliseconds_5ms] at hobs
  refine ⟨by decide, by decide, ?_, hobs, hle⟩
  rw [h.1, hd, milliseconds_4100us]
  rfl

/-- C9: whenever a probe of address `ip` on port `port` produces an observation, the one
request it handed to the transport is a `GET` of `"http://" ++ ip ++ ":" ++ fmtD port ++ "/"`
(with `fmtD` the decimal numeral of the port), and the observation is the only one, made with
the labels source = the value of the environment variable `PODIP` and destination = `ip`;
this holds whatever status the response carries. -/
theorem measureLatency_request_and_labels (env : Env) (ip : String) (port : Int)
    (hobs : observations (measureLatency env ip port) ≠ []) :
    requests (measureLatency env ip port)
        = [⟨"GET", "http://" ++ ip ++ ":" ++ fmtD port ++ "/"⟩]
      ∧ ∃ v : ℚ, observations (measureLatency env ip port) = [(env.PODIP, ip, v)] := by
  cases hurl : env.urlParses (probeURL ip port) with
  | false =>
    rw [measureLatency_bad_url env ip port hurl] at hobs
    exact absurd rfl hobs
  | true =>
    rcases hex : env.RoundTrip ⟨"GET", probeURL ip port⟩ with ⟨cbs, result⟩
    cases result with
    | failure err =>
      rw [measureLatency_failure env ip port cbs err hurl hex] at hobs
      exact absurd rfl hobs
    | response res =>
      rw [measureLatency_response env ip port cbs res hurl hex]
      constructor
      · by_cases hs : res.StatusCode = 200 <;> simp [requests, hs, probeURL]
      · refine ⟨float64 (Seconds (((lastFirstByte cbs).getD Time.zero).Sub
          ((lastConnectStart cbs).getD Time.zero)) * 1000), ?_⟩
        by_cases hs : res.StatusCode = 200 <;> simp [observations, hs]

theorem measureLatency_request_and_labels_witness :
    observations (measureLatency (answering 503) "10.0.0.7" 8080) ≠ []
      ∧ requests (measureLatency (answering 503) "10.0.0.7" 8080)
        = [⟨"GET", "http://10.0.0.7:8080/"⟩] := by
  have hobs : observations (measureLatency (answering 503) "10.0.0.7" 8080) ≠ [] := by
    rw [measureLatency_response (answering 503) "10.0.0.7" 8080 _ _ rfl rfl]
    simp [observations]
  refine ⟨hobs, ?_⟩
  rw [(measureLatency_request_and_labels (answering 503) "10.0.0.7" 8080 hobs).1]
  decide

/-- C10, counterexample: a probe answered with status 200 over a connection the transport
already had, first byte at 2018-01-01 00:00:00.007 UTC.  The first byte is 63650361600007 ms
after the zero instant, yet the observed value is 2361183241434823 / 256
(9223372036854.77734375): `Sub` returned the largest `Duration`, not the difference. -/
theorem measureLatency_reused_connection_saturates :
    lastConnectStart (reusing.RoundTrip ⟨"GET", probeURL "10.0.0.7" 8080⟩).callbacks = none
      ∧ (measureLatency reusing "10.0.0.7" 8080).mytime = some 9223372036854775807
      ∧ observations (measureLatency reusing "10.0.0.7" 8080)
        = [("10.0.0.1", "10.0.0.7", 2361183241434823 / 256)]
      ∧ (((nowAt 7).wall - Time.zero.wall : Int) : ℚ) / 1000000 = 63650361600007
      ∧ (2361183241434823 / 256 : ℚ) ≠ 63650361600007 := by
  have hd : ((lastFirstByte [Callback.GotFirstResponseByte (nowAt 7)]).getD Time.zero).Sub
      ((lastConnectStart [Callback.GotFirstResponseByte (nowAt 7)]).getD Time.zero)
      = 9223372036854775807 := by decide
  rw [measureLatency_response reusing "10.0.0.7" 8080 _ ⟨200⟩ rfl rfl, hd,
    milliseconds_maxDuration]
  refine ⟨rfl, rfl, rfl, ?_, by norm_num⟩
  have : (nowAt 7).wall - Time.zero.wall = 63650361600007000000 := by decide
  rw [this]
  norm_num

/-- C10, amended: the variables `connStart` and `firstByte` hold the time of the last
firing of their hook, and the zero time when the hook never fired.  So for a probe that
receives a response without the hook `ConnectStart` firing, first byte at `t1`, `mytime`
is `d`, the wall-clock distance of `t1` from the zero instant in nanoseconds clamped to the
range of `Duration` (from -2^63 to 2^63 - 1), and the single observed value is the
`float64` value of `mytime.Seconds() * 1e3`: when `t1` is not before the zero instant it
lies within the relative error `2^-51` of `d / 10^6`, and whenever `t1` is more than 10
seconds after the zero instant it exceeds every bucket bound, the largest one (10000)
included. -/
theorem measureLatency_without_ConnectStart (env : Env) (ip : String) (port : Int)
    (cbs : List Callback) (res : Response) (t1 : Time) (d : Int)
    (hurl : env.urlParses (probeURL ip port) = true)
    (hrt : env.RoundTrip ⟨"GET", probeURL ip port⟩ = ⟨cbs, .response res⟩)
    (hc : lastConnectStart cbs = none) (hf : lastFirstByte cbs = some t1)
    (hd : d = min (max t1.wall (-9223372036854775808)) 9223372036854775807) :
    (∀ l : List Callback, l.foldl fire ⟨Time.zero, Time.zero⟩
        = ⟨(lastConnectStart l).getD Time.zero, (lastFirstByte l).getD Time.zero⟩)
      ∧ cbs.foldl fire ⟨Time.zero, Time.zero⟩ = ⟨Time.zero, t1⟩
      ∧ (measureLatency env ip port).mytime = some d
      ∧ observations (measureLatency env ip port)
        = [(env.PODIP, ip, float64 (Seconds d * 1000))]
      ∧ (0 ≤ t1.wall →
          (d : ℚ) / 1000000 * (1 - 1 / 2 ^ 51) ≤ float64 (Seconds d * 1000)
            ∧ float64 (Seconds d * 1000) ≤ (d : ℚ) / 1000000 * (1 + 1 / 2 ^ 51))
      ∧ (10 * Second < t1.wall →
          (10000 : ℚ) < float64 (Seconds d * 1000)
            ∧ ∀ b ∈ Buckets, b < float64 (Seconds d * 1000)) := by
  have hst : ∀ l : List Callback, l.foldl fire ⟨Time.zero, Time.zero⟩
      = ⟨(lastConnectStart l).getD Time.zero, (lastFirstByte l).getD Time.zero⟩ := by
    intro l
    have h1 := foldl_fire_connStart l ⟨Time.zero, Time.zero⟩
    have h2 := foldl_fire_firstByte l ⟨Time.zero, Time.zero⟩
    cases hfold : l.foldl fire ⟨Time.zero, Time.zero⟩ with
    | mk a b =>
      rw [hfold] at h1 h2
      simp only at h1 h2
      rw [h1, h2]
  have hsub : t1.Sub Time.zero = d := by
    rw [Time.Sub, Time.diff_zero, saturate_eq_min_max, hd]
  have hmax : d ≤ maxDuration := by
    unfold maxDuration; omega
  have hrun := measureLatency_response env ip port cbs res hurl hrt
  rw [hc, hf] at hrun
  simp only [Option.getD_some, Option.getD_none, hsub] at hrun
  refine ⟨hst, ?_, ?_, ?_, ?_, ?_⟩
  · rw [hst cbs, hc, hf]; rfl
  · rw [hrun]
  · rw [hrun]
    by_cases hs : res.StatusCode = 200 <;> simp [observations, hs]
  · intro hwall
    have h0 : 0 ≤ d := by omega
    exact (milliseconds_bounds d h0 hmax).2
  · intro hlate
    have h10 : 10000000001 ≤ d := by unfold Second at hlate; omega
    have h0 : 0 ≤ d := by omega
    have hb := (milliseconds_bounds d h0 hmax).2.1
    have hq : (10000000001 : ℚ) ≤ (d : ℚ) := by exact_mod_cast h10
    have hbig : (10000 : ℚ) < float64 (Seconds d * 1000) := by
      have : (10000 : ℚ) < (d : ℚ) / 1000000 * (1 - 1 / 2 ^ 51) := by
        have h1 : (10000000001 : ℚ) / 1000000 * (1 - 1 / 2 ^ 51)
            ≤ (d : ℚ) / 1000000 * (1 - 1 / 2 ^ 51) :=
          mul_le_mul_of_nonneg_right
            (div_le_div_of_nonneg_right hq (by norm_num)) (by norm_num)
        have h2 : (10000 : ℚ) < (10000000001 : ℚ) / 1000000 * (1 - 1 / 2 ^ 51) := by norm_num
        exact lt_of_lt_of_le h2 h1
      exact lt_of_lt_of_le this hb
    exact ⟨hbig, fun b hb => lt_of_le_of_lt (Buckets_le b hb) hbig⟩

theorem measureLatency_without_ConnectStart_witness :
    lastConnectStart [Callback.GotFirstResponseByte (nowAt 7)] = none
      ∧ (9223372036854775807 : Int)
        = min (max (nowAt 7).wall (-9223372036854775808)) 9223372036854775807
      ∧ 10 * Second < (nowAt 7).wall
      ∧ (measureLatency reusing "10.0.0.7" 8080).mytime = some 9223372036854775807
      ∧ observations (measureLatency reusing "10.0.0.7" 8080)
        = [("10.0.0.1", "10.0.0.7", 2361183241434823 / 256)]
      ∧ (10000 : ℚ) < 2361183241434823 / 256 := by
  have h := measureLatency_without_ConnectStart reusing "10.0.0.7" 8080
    [.GotFirstResponseByte (nowAt 7)] ⟨200⟩ (nowAt 7) 9223372036854775807
    rfl rfl rfl rfl (by decide)
  have hobs := h.2.2.2.1
  have hbig := (h.2.2.2.2.2 (by decide)).1
  rw [milliseconds_maxDuration] at hobs hbig
  exact ⟨rfl, by decide, by decide, h.2.2.1, hobs, hbig⟩

/-! ## The bucket bounds -/

/-- The numbers `lo`, `lo + step`, `lo + 2 * step`, ... up to `hi`. -/
def stepped (lo hi step : Nat) : List ℚ :=
  (List.range ((hi - lo) / step + 1)).map fun i => ((lo + step * i : Nat) : ℚ)

/-- The bucket thresholds as the specification lists them: 1 to 20 by 1, 25 to 100 by 5,
110 to 200 by 10, 250 to 500 by 50, 600 to 1000 by 100, 2000 to 5000 by 1000, then 10000. -/
def specBuckets : List ℚ :=
  stepped 1 20 1 ++ stepped 25 100 5 ++ stepped 110 200 10 ++ stepped 250 500 50
    ++ stepped 600 1000 100 ++ stepped 2000 5000 1000 ++ [10000]

/-- C6: the bucket bounds configured for `requestDuration` are exactly the sequence the
specification lists, 62 thresholds, and the sequence is strictly increasing. -/
theorem Buckets_eq_specBuckets :
    Buckets = specBuckets ∧ Buckets.length = 62 ∧ Buckets.Pairwise (· < ·) := by
  refine ⟨?_, rfl, ?_⟩
  · simp [Buckets, specBuckets, stepped, List.range_succ]
    norm_num
  · simp only [Buckets, List.pairwise_cons, List.mem_cons, List.mem_singleton,
      List.not_mem_nil, forall_eq_or_imp, forall_eq]
    norm_num

/-! ## The loop -/

/-- The durations of the `time.Sleep` calls of a trace, in order. -/
def sleeps (tr : List LoopEvent) : List Duration :=
  tr.filterMap fun
    | .sleep d => some d
    | _ => none

/-- The `go measureLatency(ip, port)` statements of a trace, in order. -/
def launches (tr : List LoopEvent) : List (String × Int) :=
  tr.filterMap fun
    | .go ip port => some (ip, port)
    | _ => none

/-- The endpoints queries of a trace, in order: (namespace, name). -/
def queries (tr : List LoopEvent) : List (String × String) :=
  tr.filterMap fun
    | .get ns name => some (ns, name)
    | _ => none

/-- The ready addresses of an endpoints object: the `Addresses` of every subset, in subset
order, then address order. -/
def readyAddresses (endpoint : Endpoints) : List EndpointAddress :=
  endpoint.Subsets.flatMap fun subset => subset.Addresses

theorem tick_error (env : LoopEnv) (flags : Flags) (k : Nat) (err : String)
    (h : env.Get k "utils" flags.endpointsName = .error err) :
    tick env flags k
      = [.get "utils" flags.endpointsName, .log ("Unable to fetch endpoint: " ++ err ++ "\n")] := by
  unfold tick
  rw [h]

theorem tick_ok (env : LoopEnv) (flags : Flags) (k : Nat) (endpoint : Endpoints)
    (h : env.Get k "utils" flags.endpointsName = .ok endpoint) :
    tick env flags k
      = [.get "utils" flags.endpointsName] ++ fanOut endpoint flags.httpPort
        ++ [.sleep (periodDuration env flags)] := by
  unfold tick
  rw [h]

theorem fanOut_eq_map (endpoint : Endpoints) (port : Int) :
    fanOut endpoint port
      = (readyAddresses endpoint).map fun address => LoopEvent.go address.IP port := by
  unfold fanOut readyAddresses
  induction endpoint.Subsets with
  | nil => rfl
  | cons subset rest ih => simp [List.flatMap_cons, ih]

theorem launches_map_go (l : List EndpointAddress) (port : Int) :
    launches (l.map fun address => LoopEvent.go address.IP port)
      = l.map fun address => (address.IP, port) := by
  induction l with
  | nil => rfl
  | cons a rest ih =>
    unfold launches at ih ⊢
    simp [List.filterMap_cons, ih]

/-- C1 (the code departs from the claim): with an API server that fails every endpoints
query, the first two iterations of `testLoop` are query, log line, query, log line: no
probe is launched, and no `time.Sleep` separates the failed query from the next one. -/
theorem testLoop_failed_discovery_no_sleep :
    testLoop failingApi defaultFlags 2
        = [.get "utils" "shelob",
           .log "Unable to fetch endpoint: the server could not find the requested resource\n",
           .get "utils" "shelob",
           .log "Unable to fetch endpoint: the server could not find the requested resource\n"]
      ∧ sleeps (testLoop failingApi defaultFlags 2) = []
      ∧ launches (testLoop failingApi defaultFlags 2) = [] := by
  decide

set_option maxRecDepth 100000 in
/-- C7 (the code departs from the claim): with the period string "banana", which does not
parse, `testLoop` logs the warning, takes 1 second for `periodDuration` and keeps running,
and against an API server that answers it sleeps 1 second after each iteration.  Against
an API server that fails every endpoints query, though, its first two iterations are
query, log line, query, log line: it does not sleep at all between the ticks. -/
theorem testLoop_unparsable_period_no_sleep_after_failure :
    periodDuration failingApi ⟨"shelob", "banana", 8080⟩ = 1000000000
      ∧ testLoop failingApi ⟨"shelob", "banana", 8080⟩ 2
        = [.log "Error: Value of --period-duration cannot be parsed, see https://golang.org/pkg/time/#ParseDuration, using default value of '1s'. Passed value: banana Error: time: invalid duration banana\n",
           .get "utils" "shelob",
           .log "Unable to fetch endpoint: the server could not find the requested resource\n",
           .get "utils" "shelob",
           .log "Unable to fetch endpoint: the server could not find the requested resource\n"]
      ∧ sleeps (testLoop failingApi ⟨"shelob", "banana", 8080⟩ 2) = []
      ∧ sleeps (testLoop healthyApi ⟨"shelob", "banana", 8080⟩ 2) = [1000000000, 1000000000] := by
  decide

/-- C8: an iteration of `testLoop` whose endpoints query succeeds consists of the query,
then one `go measureLatency(address.IP, *httpPort)` per ready address (the `Addresses` of
every subset, in subset order then address order), then the sleep.  So it launches exactly
as many probes as there are ready addresses, all before sleeping, and the launches do not
depend on the addresses that are not ready. -/
theorem tick_fans_out (env : LoopEnv) (flags : Flags) (k : Nat) (endpoint : Endpoints)
    (h : env.Get k "utils" flags.endpointsName = .ok endpoint) :
    tick env flags k
        = [.get "utils" flags.endpointsName]
          ++ (readyAddresses endpoint).map (fun address => LoopEvent.go address.IP flags.httpPort)
          ++ [.sleep (periodDuration env flags)]
      ∧ launches (tick env flags k)
        = (readyAddresses endpoint).map (fun address => (address.IP, flags.httpPort))
      ∧ (launches (tick env flags k)).length = (readyAddresses endpoint).length
      ∧ ∀ other : Endpoints,
          other.Subsets.map (fun subset => subset.Addresses)
            = endpoint.Subsets.map (fun subset => subset.Addresses) →
          fanOut other flags.httpPort = fanOut endpoint flags.httpPort := by
  have ht : tick env flags k
      = [.get "utils" flags.endpointsName]
        ++ (readyAddresses endpoint).map (fun address => LoopEvent.go address.IP flags.httpPort)
        ++ [.sleep (periodDuration env flags)] := by
    rw [tick_ok env flags k endpoint h, fanOut_eq_map]
  have hl : launches (tick env flags k)
      = (readyAddresses endpoint).map (fun address => (address.IP, flags.httpPort)) := by
    rw [ht]
    have := launches_map_go (readyAddresses endpoint) flags.httpPort
    unfold launches at this ⊢
    simp [List.filterMap_append, this]
  refine ⟨ht, hl, by rw [hl, List.length_map], ?_⟩
  intro other hsame
  have hready : ∀ e : Endpoints,
      readyAddresses e = (e.Subsets.map fun subset => subset.Addresses).flatten := by
    intro e
    unfold readyAddresses
    induction e.Subsets with
    | nil => rfl
    | cons subset rest ih => simp [List.flatMap_cons, ih]
  rw [fanOut_eq_map, fanOut_eq_map, hready other, hready endpoint, hsame]

theorem tick_fans_out_witness :
    healthyApi.Get 0 "utils" defaultFlags.endpointsName = .ok sampleEndpoints
      ∧ launches (tick healthyApi defaultFlags 0)
        = [("10.0.0.7", 8080), ("10.0.0.8", 8080), ("10.0.1.4", 8080)] :=
  ⟨rfl, (tick_fans_out healthyApi defaultFlags 0 sampleEndpoints rfl).2.1.trans (by decide)⟩

end Shelob
